import Mathlib

/-!
Verification of the 3D-objects interactive scene viewer (`view_3D.cpp` /
`view_3D.h`).  Floating-point scalars of the C++ source are modelled as real
numbers; `glm` vectors and matrices become a `Vec3` record and
`Matrix (Fin 4) (Fin 4) ℝ`.  Each definition mirrors one function or code
region of the source; the mapping is noted in its doc comment.
-/

noncomputable section

open scoped Classical

/-- File-level constant `kGroundPlaneY = -2.0f + 0.15f` (view_3D.cpp line 19). -/
def kGroundPlaneY : ℝ := -2.0 + 0.15

/-- File-level constant `kMinObjectScale = 0.25f` (view_3D.cpp line 21). -/
def kMinObjectScale : ℝ := 0.25

/-- File-level constant `kMaxObjectScale = 8.0f` (view_3D.cpp line 22). -/
def kMaxObjectScale : ℝ := 8.0

/-- The value `std::numeric_limits<float>::max() = (2 - 2^-23) * 2^127`,
used by `pick_object` as the initial `closest_t` sentinel. -/
def fltMax : ℝ := 2 ^ (128 : ℕ) - 2 ^ (104 : ℕ)

/-- The value `std::numeric_limits<float>::epsilon() = 2^-23`, used by
`wheelEvent` to ignore zero wheel movement. -/
def fltEpsilon : ℝ := 1 / 8388608

/-- A `glm::vec3` with real-valued components. -/
@[ext]
structure Vec3 where
  x : ℝ
  y : ℝ
  z : ℝ

namespace Vec3

def add (a b : Vec3) : Vec3 := ⟨a.x + b.x, a.y + b.y, a.z + b.z⟩

def sub (a b : Vec3) : Vec3 := ⟨a.x - b.x, a.y - b.y, a.z - b.z⟩

def negv (a : Vec3) : Vec3 := ⟨-a.x, -a.y, -a.z⟩

def smul (c : ℝ) (a : Vec3) : Vec3 := ⟨c * a.x, c * a.y, c * a.z⟩

/-- `glm::dot` on `vec3`. -/
def dot (a b : Vec3) : ℝ := a.x * b.x + a.y * b.y + a.z * b.z

instance : Add Vec3 := ⟨Vec3.add⟩

instance : Sub Vec3 := ⟨Vec3.sub⟩

instance : Neg Vec3 := ⟨Vec3.negv⟩

instance : SMul ℝ Vec3 := ⟨Vec3.smul⟩

instance : Inhabited Vec3 := ⟨⟨0, 0, 0⟩⟩

@[simp] theorem add_def (a b : Vec3) : a + b = ⟨a.x + b.x, a.y + b.y, a.z + b.z⟩ := rfl

@[simp] theorem sub_def (a b : Vec3) : a - b = ⟨a.x - b.x, a.y - b.y, a.z - b.z⟩ := rfl

@[simp] theorem neg_def (a : Vec3) : -a = ⟨-a.x, -a.y, -a.z⟩ := rfl

@[simp] theorem smul_def (c : ℝ) (a : Vec3) : c • a = ⟨c * a.x, c * a.y, c * a.z⟩ := rfl

end Vec3

/-- A `glm::mat4` (column-vector convention: a `glm` product `A * B` is the
ordinary matrix product `A * B`). -/
abbrev Mat4 := Matrix (Fin 4) (Fin 4) ℝ

/-- `glm::radians`: degrees to radians. -/
def radians (degree : ℝ) : ℝ := degree * (Real.pi / 180)

/-- `glm::degrees`: radians to degrees. -/
def degrees (radian : ℝ) : ℝ := radian * (180 / Real.pi)

open Real in
/-- The rotation matrix produced by `glm::rotate(M, angle, vec3(1,0,0))`
before the left factor `M` is applied: rotation about the X axis. -/
def rotX (angle : ℝ) : Mat4 :=
  !![1, 0, 0, 0;
     0, cos angle, -sin angle, 0;
     0, sin angle, cos angle, 0;
     0, 0, 0, 1]

open Real in
/-- The rotation matrix produced by `glm::rotate(M, angle, vec3(0,1,0))`
before the left factor `M` is applied: rotation about the Y axis. -/
def rotY (angle : ℝ) : Mat4 :=
  !![cos angle, 0, sin angle, 0;
     0, 1, 0, 0;
     -sin angle, 0, cos angle, 0;
     0, 0, 0, 1]

open Real in
/-- The rotation matrix produced by `glm::rotate(M, angle, vec3(0,0,1))`
before the left factor `M` is applied: rotation about the Z axis. -/
def rotZ (angle : ℝ) : Mat4 :=
  !![cos angle, -sin angle, 0, 0;
     sin angle, cos angle, 0, 0;
     0, 0, 1, 0;
     0, 0, 0, 1]

/-- The translation matrix produced by `glm::translate(M, v)` before the
left factor `M` is applied. -/
def translateM (v : Vec3) : Mat4 :=
  !![1, 0, 0, v.x;
     0, 1, 0, v.y;
     0, 0, 1, v.z;
     0, 0, 0, 1]

namespace View

/-- `View::build_view_matrix` (view_3D.cpp lines 67-76).  `glm::rotate` and
`glm::translate` multiply the new factor on the right of the accumulator, so
the accumulated value after the four statements is
`I * Rz(-roll) * Rx(-pitch) * Ry(-yaw) * T(-position)`.
`cam_rotation_degree` stores (pitch, yaw, roll) in its (x, y, z) fields. -/
def build_view_matrix (cam_position cam_rotation_degree : Vec3) : Mat4 :=
  let V : Mat4 := 1
  let V := V * rotZ (radians (-cam_rotation_degree.z))
  let V := V * rotX (radians (-cam_rotation_degree.x))
  let V := V * rotY (radians (-cam_rotation_degree.y))
  let V := V * translateM (-cam_position)
  V

/-- The four factors of the view-matrix product, indexed in the order the
source multiplies them: negated roll, negated pitch, negated yaw, inverse
translation. -/
def viewFactor (cam_position cam_rotation_degree : Vec3) : Fin 4 → Mat4 :=
  ![rotZ (radians (-cam_rotation_degree.z)),
    rotX (radians (-cam_rotation_degree.x)),
    rotY (radians (-cam_rotation_degree.y)),
    translateM (-cam_position)]

/-- The product of the four view-matrix factors taken in the order given by a
permutation `σ` (`σ = 1` is the source's order). -/
def viewReordered (σ : Equiv.Perm (Fin 4)) (cam_position cam_rotation_degree : Vec3) : Mat4 :=
  viewFactor cam_position cam_rotation_degree (σ 0) *
    viewFactor cam_position cam_rotation_degree (σ 1) *
    viewFactor cam_position cam_rotation_degree (σ 2) *
    viewFactor cam_position cam_rotation_degree (σ 3)

end View

theorem build_view_matrix_eq_prod (p r : Vec3) :
    View.build_view_matrix p r =
      rotZ (radians (-r.z)) * rotX (radians (-r.x)) * rotY (radians (-r.y)) *
        translateM (-p) := by
  simp [View.build_view_matrix]

theorem viewReordered_one (p r : Vec3) :
    View.viewReordered 1 p r = View.build_view_matrix p r := by
  simp [View.viewReordered, View.viewFactor, build_view_matrix_eq_prod]

/-- The four view-matrix factors evaluated at the probe pose
position `(1,2,3)`, rotation `(90,90,90)` degrees: every entry is an
integer there (`cos(-90 deg) = 0`, `sin(-90 deg) = -1`). -/
def viewFactorZ : Fin 4 → Matrix (Fin 4) (Fin 4) ℤ :=
  ![!![0, 1, 0, 0; -1, 0, 0, 0; 0, 0, 1, 0; 0, 0, 0, 1],
    !![1, 0, 0, 0; 0, 0, 1, 0; 0, -1, 0, 0; 0, 0, 0, 1],
    !![0, 0, -1, 0; 0, 1, 0, 0; 1, 0, 0, 0; 0, 0, 0, 1],
    !![1, 0, 0, -1; 0, 1, 0, -2; 0, 0, 1, -3; 0, 0, 0, 1]]

/-- Product of the integer probe factors in the order given by an index map. -/
def viewProdZ (f : Fin 4 → Fin 4) : Matrix (Fin 4) (Fin 4) ℤ :=
  viewFactorZ (f 0) * viewFactorZ (f 1) * viewFactorZ (f 2) * viewFactorZ (f 3)

set_option maxRecDepth 100000 in
theorem viewProdZ_inj :
    ∀ f : Fin 4 → Fin 4, Function.Bijective f →
      viewProdZ f = viewProdZ id → ∀ k, f k = k := by decide

theorem viewFactor_probe (k : Fin 4) :
    View.viewFactor ⟨1, 2, 3⟩ ⟨90, 90, 90⟩ k =
      (Int.castRingHom ℝ).mapMatrix (viewFactorZ k) := by
  have hrad : radians (-(90 : ℝ)) = -(Real.pi / 2) := by
    unfold radians; ring
  fin_cases k <;>
    · ext i j
      fin_cases i <;> fin_cases j <;>
        simp [View.viewFactor, viewFactorZ, rotX, rotY, rotZ, translateM, hrad,
          RingHom.mapMatrix_apply, Matrix.map_apply, Matrix.vecHead, Matrix.vecTail]

theorem viewReordered_probe (σ : Equiv.Perm (Fin 4)) :
    View.viewReordered σ ⟨1, 2, 3⟩ ⟨90, 90, 90⟩ =
      (Int.castRingHom ℝ).mapMatrix (viewProdZ fun k => σ k) := by
  unfold View.viewReordered viewProdZ
  rw [viewFactor_probe, viewFactor_probe, viewFactor_probe, viewFactor_probe,
    ← map_mul, ← map_mul, ← map_mul]

/-- C1: for every camera pose, `build_view_matrix` returns exactly the product
`Rz(-roll) * Rx(-pitch) * Ry(-yaw) * T(-position)` (negated roll leftmost,
inverse translation rightmost), and no nontrivial reordering of these four
factors yields the same function of the pose. -/
theorem C1_view_matrix_order :
    (∀ p r : Vec3, View.build_view_matrix p r =
        rotZ (radians (-r.z)) * rotX (radians (-r.x)) * rotY (radians (-r.y)) *
          translateM (-p))
    ∧ ∀ σ : Equiv.Perm (Fin 4),
        (∀ p r : Vec3, View.viewReordered σ p r = View.build_view_matrix p r) →
          σ = 1 := by
  constructor
  · exact build_view_matrix_eq_prod
  · intro σ h
    have h₀ := h ⟨1, 2, 3⟩ ⟨90, 90, 90⟩
    rw [viewReordered_probe, ← viewReordered_one ⟨1, 2, 3⟩ ⟨90, 90, 90⟩,
      viewReordered_probe] at h₀
    have h₂ : (viewProdZ fun k => σ k) = viewProdZ id := by
      apply Matrix.ext; intro i j
      have h₃ : ((Int.castRingHom ℝ).mapMatrix (viewProdZ fun k => σ k)) i j =
          ((Int.castRingHom ℝ).mapMatrix (viewProdZ fun k => (1 : Equiv.Perm (Fin 4)) k)) i j := by
        rw [h₀]
      simp only [RingHom.mapMatrix_apply, Matrix.map_apply] at h₃
      exact Int.cast_injective h₃
    have h₄ := viewProdZ_inj _ σ.bijective h₂
    exact Equiv.ext h₄

/-- Witness for C1: the source's own order satisfies the reordering premise,
and the theorem then forces the permutation to be the identity. -/
theorem C1_view_matrix_order_witness : (1 : Equiv.Perm (Fin 4)) = 1 :=
  C1_view_matrix_order.2 1 viewReordered_one

/-- `View::ImportedObject` (view_3D.h lines 57-66).  The GPU handles `vao` and
`vbo` are opaque resources with no influence on the modelled behaviour and are
omitted; the remaining fields keep their defaults (`base_footprint = 1`,
`radius = 1`, `scale = 1`). -/
structure ImportedObject where
  vertex_count : ℕ := 0
  translation : Vec3 := ⟨0, 0, 0⟩
  base_footprint : ℝ := 1.0
  radius : ℝ := 1.0
  scale : ℝ := 1.0

instance : Inhabited ImportedObject := ⟨{}⟩

/-- A world-space ray: `compute_ray`'s output pair (origin, direction).
`View::compute_ray` (view_3D.cpp lines 824-841) unprojects the cursor through
the inverse projection and view matrices; the handlers below receive its
result directly, `none` standing for its `false` return on a degenerate
viewport. -/
abbrev Ray := Vec3 × Vec3

namespace View

/-- Body of `View::intersect_ground_plane` (view_3D.cpp lines 843-857) after
`compute_ray` has produced the ray: reject near-parallel rays
(`|direction.y| < 1e-4`), reject intersections behind the origin (`t < 0`),
otherwise return the hit point with its Y snapped to `kGroundPlaneY`. -/
def intersect_ground_plane_ray (origin direction : Vec3) : Option Vec3 :=
  let denominator := direction.y
  if |denominator| < 1e-4 then none
  else
    let t := (kGroundPlaneY - origin.y) / denominator
    if t < 0 then none
    else
      let hit_point := origin + t • direction
      some ⟨hit_point.x, kGroundPlaneY, hit_point.z⟩

/-- `View::intersect_ground_plane` on an optional ray (`none` when
`compute_ray` failed, in which case the function returns `false`). -/
def intersect_ground_plane (ray : Option Ray) : Option Vec3 :=
  ray.bind fun r => intersect_ground_plane_ray r.1 r.2

/-- The per-object ray-sphere test of `View::pick_object`
(view_3D.cpp lines 869-886): quadratic coefficients for the sphere centred at
the object's translation with radius `radius * scale`; `none` when the
discriminant is negative or both roots are negative, otherwise the first
non-negative root. -/
def hit_parameter (origin direction : Vec3) (object : ImportedObject) : Option ℝ :=
  let center := object.translation
  let radius := object.radius * object.scale
  let origin_center := origin - center
  let a := Vec3.dot direction direction
  let b := 2 * Vec3.dot origin_center direction
  let c := Vec3.dot origin_center origin_center - radius * radius
  let discriminant := b * b - 4 * a * c
  if discriminant < 0 then none
  else
    let sqrt_discriminant := Real.sqrt discriminant
    let t₁ := (-b - sqrt_discriminant) / (2 * a)
    let t := if t₁ < 0 then (-b + sqrt_discriminant) / (2 * a) else t₁
    if t < 0 then none else some t

/-- The accumulation loop of `View::pick_object` (view_3D.cpp lines 864-894):
`i` is the index of the head of the remaining list, `closest_t` the nearest
hit so far (initially `std::numeric_limits<float>::max()`), `best` the index
of that hit (initially `-1`); an object replaces the best hit only when its
parameter is strictly smaller than `closest_t`. -/
def pick_loop (origin direction : Vec3) :
    List ImportedObject → ℤ → ℝ → ℤ → ℤ
  | [], _, _, best => best
  | object :: rest, i, closest_t, best =>
      match hit_parameter origin direction object with
      | none => pick_loop origin direction rest (i + 1) closest_t best
      | some t =>
          if t < closest_t then pick_loop origin direction rest (i + 1) t i
          else pick_loop origin direction rest (i + 1) closest_t best

/-- `View::pick_object` (view_3D.cpp lines 859-895) given the world-space ray
produced by `compute_ray`. -/
def pick_object_ray (origin direction : Vec3) (objects : List ImportedObject) : ℤ :=
  pick_loop origin direction objects 0 fltMax (-1)

/-- `View::pick_object` on an optional ray (`-1` when `compute_ray` failed). -/
def pick_object (ray : Option Ray) (objects : List ImportedObject) : ℤ :=
  match ray with
  | none => -1
  | some r => pick_object_ray r.1 r.2 objects

end View

/-- C4: given a ray, `intersect_ground_plane` misses exactly when
`|direction.y| < 1e-4` (in particular for every horizontal ray) or when the
solved parameter `t = (ground_y - origin.y) / direction.y` is negative, and
every returned hit point has its Y coordinate exactly equal to
`kGroundPlaneY`. -/
theorem C4_ground_plane_miss_iff :
    ∀ origin direction : Vec3,
      (View.intersect_ground_plane_ray origin direction = none ↔
        |direction.y| < 1e-4 ∨ (kGroundPlaneY - origin.y) / direction.y < 0)
      ∧ (direction.y = 0 →
          View.intersect_ground_plane_ray origin direction = none)
      ∧ ∀ hit, View.intersect_ground_plane_ray origin direction = some hit →
          hit.y = kGroundPlaneY := by
  intro origin direction
  refine ⟨?_, ?_, ?_⟩
  · simp only [View.intersect_ground_plane_ray]
    split_ifs with h₁ h₂
    · simp [h₁]
    · simp [h₁, h₂]
    · simp [h₁, h₂]
  · intro h₀
    simp only [View.intersect_ground_plane_ray]
    rw [if_pos]
    rw [h₀]
    norm_num
  · intro hit h
    simp only [View.intersect_ground_plane_ray] at h
    split_ifs at h
    obtain rfl : (⟨(origin + ((kGroundPlaneY - origin.y) / direction.y) • direction).x,
        kGroundPlaneY,
        (origin + ((kGroundPlaneY - origin.y) / direction.y) • direction).z⟩ : Vec3) = hit :=
      Option.some_injective _ h
    rfl

/-- Witness for C4: a horizontal ray misses, and a downward ray from the
origin hits with Y exactly at ground height. -/
theorem C4_ground_plane_miss_iff_witness :
    View.intersect_ground_plane_ray ⟨0, 0, 0⟩ ⟨1, 0, 0⟩ = none ∧
      (⟨0, kGroundPlaneY, 0⟩ : Vec3).y = kGroundPlaneY :=
  ⟨(C4_ground_plane_miss_iff ⟨0, 0, 0⟩ ⟨1, 0, 0⟩).2.1 rfl,
   (C4_ground_plane_miss_iff ⟨0, 0, 0⟩ ⟨0, -1, 0⟩).2.2 ⟨0, kGroundPlaneY, 0⟩ (by
      simp only [View.intersect_ground_plane_ray]
      rw [if_neg (by norm_num), if_neg (by norm_num [kGroundPlaneY])]
      norm_num [kGroundPlaneY])⟩

theorem hit_parameter_nonneg (o d : Vec3) (object : ImportedObject) (t : ℝ)
    (h : View.hit_parameter o d object = some t) : 0 ≤ t := by
  simp only [View.hit_parameter] at h
  split_ifs at h with h₁ h₂ h₃ <;> cases h <;>
    first
      | exact not_lt.mp h₃
      | exact not_lt.mp h₂

theorem pick_loop_spec (o d : Vec3) :
    ∀ (objs : List ImportedObject) (i : ℤ) (ct : ℝ) (best : ℤ),
      (View.pick_loop o d objs i ct best = best ∧
        ∀ k (hk : k < objs.length) t,
          View.hit_parameter o d (objs.get ⟨k, hk⟩) = some t → ct ≤ t)
      ∨ (∃ k, ∃ hk : k < objs.length, ∃ t,
          View.pick_loop o d objs i ct best = i + k ∧
          View.hit_parameter o d (objs.get ⟨k, hk⟩) = some t ∧ t < ct ∧
          (∀ j (hj : j < objs.length) u,
            View.hit_parameter o d (objs.get ⟨j, hj⟩) = some u → t ≤ u) ∧
          (∀ j (hj : j < objs.length) u, j < k →
            View.hit_parameter o d (objs.get ⟨j, hj⟩) = some u → t < u)) := by
  intro objs
  induction objs with
  | nil =>
      intro i ct best
      left
      exact ⟨rfl, fun k hk => by simp at hk⟩
  | cons obj rest ih =>
      intro i ct best
      have hstep : ∀ ct₂ best₂, View.pick_loop o d (obj :: rest) i ct₂ best₂ =
          match View.hit_parameter o d obj with
          | none => View.pick_loop o d rest (i + 1) ct₂ best₂
          | some t =>
              if t < ct₂ then View.pick_loop o d rest (i + 1) t i
              else View.pick_loop o d rest (i + 1) ct₂ best₂ := fun _ _ => rfl
      cases hh : View.hit_parameter o d obj with
      | none =>
          rw [hstep, hh]
          rcases ih (i + 1) ct best with ⟨hres, hall⟩ | ⟨k, hk, t, hres, hht, hlt, hmin, hfirst⟩
          · left
            refine ⟨hres, ?_⟩
            intro k hk u hu
            match k, hk with
            | 0, _ => rw [show (obj :: rest).get ⟨0, by omega⟩ = obj from rfl, hh] at hu; cases hu
            | k + 1, hk => exact hall k (by simpa using hk) u hu
          · right
            refine ⟨k + 1, by simpa using hk, t, ?_, hht, hlt, ?_, ?_⟩
            · rw [hres]; push_cast; ring
            · intro j hj u hu
              match j, hj with
              | 0, _ => rw [show (obj :: rest).get ⟨0, by omega⟩ = obj from rfl, hh] at hu; cases hu
              | j + 1, hj => exact hmin j (by simpa using hj) u hu
            · intro j hj u hjk hu
              match j, hj with
              | 0, _ => rw [show (obj :: rest).get ⟨0, by omega⟩ = obj from rfl, hh] at hu; cases hu
              | j + 1, hj => exact hfirst j (by simpa using hj) u (by omega) hu
      | some t₀ =>
          rw [hstep, hh]
          dsimp only
          by_cases hlt₀ : t₀ < ct
          · rw [if_pos hlt₀]
            rcases ih (i + 1) t₀ i with ⟨hres, hall⟩ | ⟨k, hk, t, hres, hht, hlt, hmin, hfirst⟩
            · right
              refine ⟨0, by simp, t₀, by rw [hres]; ring, hh, hlt₀, ?_, ?_⟩
              · intro j hj u hu
                match j, hj with
                | 0, _ =>
                    rw [show (obj :: rest).get ⟨0, by omega⟩ = obj from rfl, hh] at hu
                    obtain rfl := Option.some_injective _ hu; exact le_refl t₀
                | j + 1, hj => exact hall j (by simpa using hj) u hu
              · intro j hj u hjk hu; omega
            · right
              refine ⟨k + 1, by simpa using hk, t, ?_, hht, lt_trans hlt hlt₀, ?_, ?_⟩
              · rw [hres]; push_cast; ring
              · intro j hj u hu
                match j, hj with
                | 0, _ =>
                    rw [show (obj :: rest).get ⟨0, by omega⟩ = obj from rfl, hh] at hu
                    obtain rfl := Option.some_injective _ hu; exact le_of_lt hlt
                | j + 1, hj => exact hmin j (by simpa using hj) u hu
              · intro j hj u hjk hu
                match j, hj with
                | 0, _ =>
                    rw [show (obj :: rest).get ⟨0, by omega⟩ = obj from rfl, hh] at hu
                    obtain rfl := Option.some_injective _ hu; exact hlt
                | j + 1, hj => exact hfirst j (by simpa using hj) u (by omega) hu
          · rw [if_neg hlt₀]
            rcases ih (i + 1) ct best with ⟨hres, hall⟩ | ⟨k, hk, t, hres, hht, hlt, hmin, hfirst⟩
            · left
              refine ⟨hres, ?_⟩
              intro k hk u hu
              match k, hk with
              | 0, _ =>
                  rw [show (obj :: rest).get ⟨0, by omega⟩ = obj from rfl, hh] at hu
                  obtain rfl := Option.some_injective _ hu; linarith [not_lt.mp hlt₀]
              | k + 1, hk => exact hall k (by simpa using hk) u hu
            · right
              refine ⟨k + 1, by simpa using hk, t, ?_, hht, hlt, ?_, ?_⟩
              · rw [hres]; push_cast; ring
              · intro j hj u hu
                match j, hj with
                | 0, _ =>
                    rw [show (obj :: rest).get ⟨0, by omega⟩ = obj from rfl, hh] at hu
                    obtain rfl := Option.some_injective _ hu
                    have hct : ct ≤ t₀ := not_lt.mp hlt₀
                    linarith
                | j + 1, hj => exact hmin j (by simpa using hj) u hu
              · intro j hj u hjk hu
                match j, hj with
                | 0, _ =>
                    rw [show (obj :: rest).get ⟨0, by omega⟩ = obj from rfl, hh] at hu
                    obtain rfl := Option.some_injective _ hu
                    have hct : ct ≤ t₀ := not_lt.mp hlt₀
                    linarith
                | j + 1, hj => exact hfirst j (by simpa using hj) u (by omega) hu

/-- C2 (amended): for every object list and ray, `pick_object` tests each
object's world bounding sphere (centre = translation, radius =
`radius * scale`), skips an object when the discriminant is negative or both
roots are negative, and among the remaining hits whose parameter is below the
`closest_t` sentinel `std::numeric_limits<float>::max()` returns the index of
the object with the smallest non-negative parameter `t` (the first such index
on ties); it returns `-1` when every object is skipped or every hit parameter
is at least the sentinel. -/
theorem C2_pick_nearest :
    ∀ (origin direction : Vec3) (objects : List ImportedObject),
      (View.pick_object_ray origin direction objects = -1 ↔
        ∀ k (hk : k < objects.length) t,
          View.hit_parameter origin direction (objects.get ⟨k, hk⟩) = some t →
            fltMax ≤ t)
      ∧ (View.pick_object_ray origin direction objects ≠ -1 →
          ∃ k, ∃ hk : k < objects.length, ∃ t,
            View.pick_object_ray origin direction objects = k ∧
            View.hit_parameter origin direction (objects.get ⟨k, hk⟩) = some t ∧
            0 ≤ t ∧ t < fltMax ∧
            (∀ j (hj : j < objects.length) u,
              View.hit_parameter origin direction (objects.get ⟨j, hj⟩) = some u →
                t ≤ u) ∧
            ∀ j (hj : j < objects.length) u, j < k →
              View.hit_parameter origin direction (objects.get ⟨j, hj⟩) = some u →
                t < u) := by
  intro origin direction objects
  have hspec := pick_loop_spec origin direction objects 0 fltMax (-1)
  constructor
  · constructor
    · intro hres k hk t ht
      rcases hspec with ⟨_, hall⟩ | ⟨k₂, hk₂, t₂, hres₂, _, hlt₂, _, _⟩
      · exact hall k hk t ht
      · exfalso
        rw [View.pick_object_ray] at hres
        rw [hres] at hres₂
        omega
    · intro hfar
      rcases hspec with ⟨hres, _⟩ | ⟨k₂, hk₂, t₂, hres₂, hht₂, hlt₂, _, _⟩
      · exact hres
      · exact absurd hlt₂ (not_lt.mpr (hfar k₂ hk₂ t₂ hht₂))
  · intro hne
    rcases hspec with ⟨hres, _⟩ | ⟨k₂, hk₂, t₂, hres₂, hht₂, hlt₂, hmin₂, hfirst₂⟩
    · exact absurd hres hne
    · exact ⟨k₂, hk₂, t₂, by rw [View.pick_object_ray, hres₂]; ring,
        hht₂, hit_parameter_nonneg _ _ _ _ hht₂, hlt₂, hmin₂, hfirst₂⟩

/-- Witness for C2 (amended): on an empty scene the pick returns `-1`. -/
theorem C2_pick_nearest_witness :
    View.pick_object_ray ⟨0, 0, 0⟩ ⟨0, 0, -1⟩ [] = -1 :=
  (C2_pick_nearest ⟨0, 0, 0⟩ ⟨0, 0, -1⟩ []).1.mpr (fun k hk => by simp at hk)

/-- An object whose bounding sphere is hit only beyond the float-max sentinel
when viewed from `(-2^127, 0, 0)`: centre `(2^127, 0, 0)`, radius 1. -/
def farObject : ImportedObject :=
  { translation := ⟨2 ^ (127 : ℕ), 0, 0⟩, radius := 1, scale := 1 }

/-- Counterexample to C2 as stated: along the ray from `(-2^127, 0, 0)` in
direction `(1, 0, 0)` the single object has a positive discriminant and the
non-negative root `2^128 - 1`, so the claim requires index 0, yet
`pick_object` returns `-1` because the root is not below the
`std::numeric_limits<float>::max()` sentinel used as the initial
`closest_t`. -/
theorem C2_pick_nearest_counterexample :
    View.hit_parameter ⟨-(2 ^ (127 : ℕ)), 0, 0⟩ ⟨1, 0, 0⟩ farObject =
        some (2 ^ (128 : ℕ) - 1)
      ∧ (0 : ℝ) ≤ 2 ^ (128 : ℕ) - 1
      ∧ View.pick_object_ray ⟨-(2 ^ (127 : ℕ)), 0, 0⟩ ⟨1, 0, 0⟩ [farObject] = -1
      ∧ (-1 : ℤ) ≠ 0 := by
  have hsqrt : Real.sqrt 4 = 2 := by
    rw [show (4 : ℝ) = 2 ^ 2 by norm_num, Real.sqrt_sq (by norm_num : (0 : ℝ) ≤ 2)]
  have hhit : View.hit_parameter ⟨-(2 ^ (127 : ℕ)), 0, 0⟩ ⟨1, 0, 0⟩ farObject =
      some (2 ^ (128 : ℕ) - 1) := by
    simp only [View.hit_parameter, farObject, Vec3.dot, Vec3.sub_def]
    norm_num
    rw [hsqrt]
    norm_num
  refine ⟨hhit, by norm_num, ?_, by norm_num⟩
  show View.pick_loop _ _ [farObject] 0 fltMax (-1) = -1
  have hstep : View.pick_loop ⟨-(2 ^ (127 : ℕ)), 0, 0⟩ ⟨1, 0, 0⟩ [farObject] 0 fltMax (-1) =
      match View.hit_parameter ⟨-(2 ^ (127 : ℕ)), 0, 0⟩ ⟨1, 0, 0⟩ farObject with
      | none => View.pick_loop ⟨-(2 ^ (127 : ℕ)), 0, 0⟩ ⟨1, 0, 0⟩ [] (0 + 1) fltMax (-1)
      | some t =>
          if t < fltMax then View.pick_loop ⟨-(2 ^ (127 : ℕ)), 0, 0⟩ ⟨1, 0, 0⟩ [] (0 + 1) t 0
          else View.pick_loop ⟨-(2 ^ (127 : ℕ)), 0, 0⟩ ⟨1, 0, 0⟩ [] (0 + 1) fltMax (-1) := rfl
  rw [hstep, hhit]
  dsimp only
  rw [if_neg (by norm_num [fltMax])]
  rfl

namespace View

/-- The `overlaps` lambda of `View::load_object` (view_3D.cpp lines 504-516):
a candidate position overlaps when some existing object's planar (XZ) centre
distance is below the sum of the two footprint radii
(`base_footprint * scale * 0.5` each) plus `epsilon = 0.05`. -/
def placement_overlaps (objs : List ImportedObject) (base_footprint scale : ℝ)
    (position : Vec3) : Prop :=
  ∃ existing ∈ objs,
    Real.sqrt ((existing.translation.x - position.x) ^ 2 +
        (existing.translation.z - position.z) ^ 2) <
      existing.base_footprint * existing.scale * 0.5 +
        base_footprint * scale * 0.5 + 0.05

/-- The placement loop of `View::load_object` (view_3D.cpp lines 502-523):
starting from the candidate `(0, kGroundPlaneY, 0)`, advance along world X by
`base_footprint * scale` while the candidate overlaps an existing object.
The loop visits the candidates in order `n = 0, 1, 2, ...`, so it stops at
the least clear `n`; `none` models non-termination (no candidate on the scan
line is ever clear). -/
def placement_result (objs : List ImportedObject) (base_footprint scale : ℝ) :
    Option Vec3 :=
  if h : ∃ n : ℕ, ¬ placement_overlaps objs base_footprint scale
      ⟨base_footprint * scale * n, kGroundPlaneY, 0⟩ then
    some ⟨base_footprint * scale * (Nat.find h), kGroundPlaneY, 0⟩
  else none

end View

/-- The `base_footprint` computation of `View::load_object`
(view_3D.cpp line 465): `std::max({1.0f, max_x - min_x, max_z - min_z}) + 0.5f`. -/
def base_footprint_of (x_extent z_extent : ℝ) : ℝ :=
  max (max 1.0 x_extent) z_extent + 0.5

/-- One import through the placement allocator for an object of footprint `f`
at the import-time scale 1: the placed object is appended with its translation
produced by the placement loop (`View::load_object`, lines 502-524). -/
def import_footprint_step (objs : List ImportedObject) (f : ℝ) :
    Option (List ImportedObject) :=
  (View.placement_result objs f 1).map fun position =>
    objs ++ [{ translation := position, base_footprint := f, radius := 1, scale := 1 }]

/-- Importing `N` objects of identical footprint `f` in sequence, each placed
by the allocator starting from the nominal candidate `(0, kGroundPlaneY, 0)`. -/
def import_identical (f : ℝ) : ℕ → Option (List ImportedObject)
  | 0 => some []
  | n + 1 => (import_identical f n).bind fun objs => import_footprint_step objs f

/-- The object that `import_identical` places at index `k`: it sits at
`x = 2 * f * k` on the ground plane. -/
def expected_entry (f : ℝ) (k : ℕ) : ImportedObject :=
  { translation := ⟨2 * f * (k : ℝ), kGroundPlaneY, 0⟩, base_footprint := f,
    radius := 1, scale := 1 }

/-- The object list produced by `import_identical f N`. -/
def expected_row (f : ℝ) (N : ℕ) : List ImportedObject :=
  (List.range N).map (expected_entry f)

theorem row_dist (a b : ℝ) :
    Real.sqrt ((a - b) ^ 2 + ((0 : ℝ) - 0) ^ 2) = |a - b| := by
  rw [show (a - b) ^ 2 + ((0 : ℝ) - 0) ^ 2 = (a - b) ^ 2 by ring, Real.sqrt_sq_eq_abs]

theorem expected_row_length (f : ℝ) (N : ℕ) : (expected_row f N).length = N := by
  unfold expected_row
  rw [List.length_map, List.length_range]

theorem expected_row_get (f : ℝ) (N k : ℕ) (hk : k < (expected_row f N).length) :
    (expected_row f N).get ⟨k, hk⟩ = expected_entry f k := by
  unfold expected_row at hk ⊢
  rw [List.get_map]
  congr 1
  rw [List.get_range]

theorem expected_row_mem (f : ℝ) (N : ℕ) {e : ImportedObject}
    (he : e ∈ expected_row f N) : ∃ m, m < N ∧ e = expected_entry f m := by
  unfold expected_row at he
  rcases List.mem_map.mp he with ⟨m, hm, rfl⟩
  exact ⟨m, List.mem_range.mp hm, rfl⟩

theorem expected_row_mem_of_lt (f : ℝ) (N m : ℕ) (hm : m < N) :
    expected_entry f m ∈ expected_row f N := by
  unfold expected_row
  exact List.mem_map.mpr ⟨m, List.mem_range.mpr hm, rfl⟩

theorem placement_expected (f : ℝ) (hf : 0.05 ≤ f) (K : ℕ) :
    View.placement_result (expected_row f K) f 1 =
      some ⟨2 * f * K, kGroundPlaneY, 0⟩ := by
  have hf0 : 0 < f := lt_of_lt_of_le (by norm_num) hf
  have hover : ∀ n : ℕ, n < 2 * K →
      View.placement_overlaps (expected_row f K) f 1 ⟨f * 1 * n, kGroundPlaneY, 0⟩ := by
    intro n hn
    rcases Nat.even_or_odd n with ⟨m, hm⟩ | ⟨m, hm⟩
    · refine ⟨_, expected_row_mem_of_lt f K m (by omega), ?_⟩
      dsimp only [expected_entry]
      rw [row_dist, show 2 * f * (m : ℝ) - f * 1 * (n : ℝ) = 0 by
        subst hm; push_cast; ring]
      rw [abs_zero]; linarith
    · refine ⟨_, expected_row_mem_of_lt f K m (by omega), ?_⟩
      dsimp only [expected_entry]
      rw [row_dist, show 2 * f * (m : ℝ) - f * 1 * (n : ℝ) = -f by
        subst hm; push_cast; ring]
      rw [abs_neg, abs_of_pos hf0]; linarith
  have hclear : ¬ View.placement_overlaps (expected_row f K) f 1
      ⟨f * 1 * ((2 * K : ℕ) : ℝ), kGroundPlaneY, 0⟩ := by
    rintro ⟨e, he, hd⟩
    rcases expected_row_mem f K he with ⟨m, hm, rfl⟩
    dsimp only [expected_entry] at hd
    rw [row_dist] at hd
    have hKm : (1 : ℝ) ≤ (K : ℝ) - m := by
      have hcast : (m : ℝ) + 1 ≤ K := by exact_mod_cast hm
      linarith
    rw [show 2 * f * (m : ℝ) - f * 1 * ((2 * K : ℕ) : ℝ) =
        -(f * (2 * (K : ℝ) - 2 * m)) by push_cast; ring, abs_neg,
      abs_of_nonneg (by nlinarith)] at hd
    nlinarith [mul_le_mul_of_nonneg_left hKm (le_of_lt hf0)]
  have hex : ∃ n : ℕ, ¬ View.placement_overlaps (expected_row f K) f 1
      ⟨f * 1 * n, kGroundPlaneY, 0⟩ := ⟨2 * K, hclear⟩
  have hfind : Nat.find hex = 2 * K := by
    rw [Nat.find_eq_iff]
    exact ⟨hclear, fun n hn hcon => hcon (hover n hn)⟩
  simp only [View.placement_result]
  rw [dif_pos hex, hfind,
    show f * 1 * ((2 * K : ℕ) : ℝ) = 2 * f * (K : ℝ) by push_cast; ring]

theorem import_identical_eq (f : ℝ) (hf : 0.05 ≤ f) :
    ∀ N, import_identical f N = some (expected_row f N) := by
  intro N
  induction N with
  | zero => rfl
  | succ n ih =>
      show (import_identical f n).bind (fun objs => import_footprint_step objs f) =
        some (expected_row f (n + 1))
      rw [ih]
      show import_footprint_step (expected_row f n) f = some (expected_row f (n + 1))
      rw [import_footprint_step, placement_expected f hf n]
      show some (expected_row f n ++ [expected_entry f n]) = _
      congr 1
      unfold expected_row
      rw [List.range_succ, List.map_append, List.map_singleton]

/-- C3 (amended): importing `N` objects with identical footprint `f` (all at
scale 1) through the placement allocator, each starting from the nominal
candidate `(0, ground_y, 0)`, yields translations spaced exactly `2 * f`
apart along the world X axis — object `k` lands at `x = 2 * f * k`, twice the
claimed `f * k`, because a candidate at planar distance exactly `f` from an
existing object still counts as overlapping under the `epsilon = 0.05`
margin — with zero pairwise overlap of the footprint circles (radius
`f * 1 * 0.5`) of any two placed objects. -/
theorem C3_placement_spacing :
    ∀ f : ℝ, 0.05 ≤ f → ∀ N : ℕ,
      ∃ objs, import_identical f N = some objs ∧ objs.length = N ∧
        (∀ k, ∀ hk : k < objs.length,
          (objs.get ⟨k, hk⟩).translation = ⟨2 * f * (k : ℝ), kGroundPlaneY, 0⟩) ∧
        ∀ i j, ∀ hi : i < objs.length, ∀ hj : j < objs.length, i ≠ j →
          f * 1 * 0.5 + f * 1 * 0.5 ≤
            |(objs.get ⟨i, hi⟩).translation.x - (objs.get ⟨j, hj⟩).translation.x| := by
  intro f hf N
  have hf0 : 0 < f := lt_of_lt_of_le (by norm_num) hf
  refine ⟨expected_row f N, import_identical_eq f hf N, expected_row_length f N, ?_, ?_⟩
  · intro k hk
    rw [expected_row_get]
    rfl
  · intro i j hi hj hne
    rw [expected_row_get, expected_row_get]
    show f * 1 * 0.5 + f * 1 * 0.5 ≤ |2 * f * (i : ℝ) - 2 * f * (j : ℝ)|
    have hij : (1 : ℝ) ≤ |(i : ℝ) - (j : ℝ)| := by
      rcases hne.lt_or_lt with h | h
      · have h1 : (i : ℝ) + 1 ≤ (j : ℝ) := by exact_mod_cast Nat.succ_le_of_lt h
        rw [abs_sub_comm, abs_of_nonneg (by linarith)]
        linarith
      · have h1 : (j : ℝ) + 1 ≤ (i : ℝ) := by exact_mod_cast Nat.succ_le_of_lt h
        rw [abs_of_nonneg (by linarith)]
        linarith
    rw [show 2 * f * (i : ℝ) - 2 * f * (j : ℝ) = (2 * f) * ((i : ℝ) - (j : ℝ)) by ring,
      abs_mul, abs_of_nonneg (by linarith : (0 : ℝ) ≤ 2 * f)]
    nlinarith

/-- Witness for C3 (amended): two objects of footprint 2 land at x = 0 and
x = 4, spaced 2 * 2 apart with no overlap. -/
theorem C3_placement_spacing_witness :
    ∃ objs, import_identical 2 2 = some objs ∧ objs.length = 2 ∧
      (∀ k, ∀ hk : k < objs.length,
        (objs.get ⟨k, hk⟩).translation = ⟨2 * 2 * (k : ℝ), kGroundPlaneY, 0⟩) ∧
      ∀ i j, ∀ hi : i < objs.length, ∀ hj : j < objs.length, i ≠ j →
        2 * 1 * 0.5 + 2 * 1 * 0.5 ≤
          |(objs.get ⟨i, hi⟩).translation.x - (objs.get ⟨j, hj⟩).translation.x| :=
  C3_placement_spacing 2 (by norm_num) 2

/-- Counterexample to C3 as stated: with footprint `F = 2` the second object
lands at `x = 4`, not at the claimed `x = 1 * F = 2`. -/
theorem C3_placement_spacing_counterexample :
    import_identical 2 2 = some (expected_row 2 2) ∧
      ((expected_row 2 2).get ⟨1, by rw [expected_row_length]; omega⟩).translation.x = 4 ∧
      (4 : ℝ) ≠ 1 * 2 := by
  refine ⟨import_identical_eq 2 (by norm_num) 2, ?_, by norm_num⟩
  rw [expected_row_get]
  show 2 * 2 * ((1 : ℕ) : ℝ) = 4
  norm_num

/-- An upper bound on the right edge (`x` plus footprint radius) of every
object in a list, used to find a clear candidate for the placement loop. -/
def row_right_edge (objs : List ImportedObject) : ℝ :=
  objs.foldr (fun e acc => max (e.translation.x + e.base_footprint * e.scale * 0.5) acc) 0

theorem row_right_edge_bound (objs : List ImportedObject) :
    ∀ e ∈ objs, e.translation.x + e.base_footprint * e.scale * 0.5 ≤ row_right_edge objs := by
  induction objs with
  | nil => intro e he; cases he
  | cons a rest ih =>
      intro e he
      rcases List.mem_cons.mp he with rfl | hrest
      · exact le_max_left _ _
      · exact le_trans (ih e hrest) (le_max_right _ _)

/-- C10: the placement search loop of `load_object` terminates for every
finite existing object list.  The new object's `base_footprint` is
`max(1.0, XZ extents) + 0.5 ≥ 1.5`, its scale is 1.0 at import, so each loop
iteration advances the candidate by the strictly positive step
`base_footprint * scale`, and after finitely many steps the candidate clears
every existing object's footprint circle (the loop result is `some`). -/
theorem C10_placement_terminates :
    (∀ x_extent z_extent : ℝ, 1.5 ≤ base_footprint_of x_extent z_extent)
    ∧ (∀ (objs : List ImportedObject) (f s : ℝ), 0 < f * s →
        (View.placement_result objs f s).isSome = true)
    ∧ ∀ (objs : List ImportedObject) (x_extent z_extent : ℝ),
        (View.placement_result objs (base_footprint_of x_extent z_extent) 1).isSome = true := by
  have h₁ : ∀ x_extent z_extent : ℝ, 1.5 ≤ base_footprint_of x_extent z_extent := by
    intro xe ze
    unfold base_footprint_of
    have h10 : (1.0 : ℝ) ≤ max (max 1.0 xe) ze :=
      le_trans (le_max_left _ _) (le_max_left _ _)
    have h10e : (1.0 : ℝ) = 1 := by norm_num
    linarith [h10e ▸ h10]
  have h₂ : ∀ (objs : List ImportedObject) (f s : ℝ), 0 < f * s →
      (View.placement_result objs f s).isSome = true := by
    intro objs f s hfs
    obtain ⟨n, hn⟩ := exists_nat_gt
      ((row_right_edge objs + f * s * 0.5 + 0.05) / (f * s))
    have hx : row_right_edge objs + f * s * 0.5 + 0.05 < f * s * n := by
      rw [div_lt_iff hfs] at hn
      calc row_right_edge objs + f * s * 0.5 + 0.05 < n * (f * s) := hn
        _ = f * s * n := by ring
    have hclear : ¬ View.placement_overlaps objs f s
        ⟨f * s * n, kGroundPlaneY, 0⟩ := by
      rintro ⟨e, he, hd⟩
      have hedge := row_right_edge_bound objs e he
      have habs : |e.translation.x - f * s * (n : ℝ)| ≤
          Real.sqrt ((e.translation.x - f * s * (n : ℝ)) ^ 2 +
            (e.translation.z - (⟨f * s * n, kGroundPlaneY, 0⟩ : Vec3).z) ^ 2) := by
        rw [← Real.sqrt_sq_eq_abs]
        exact Real.sqrt_le_sqrt (le_add_of_nonneg_right (sq_nonneg _))
      have hge : f * s * (n : ℝ) - e.translation.x ≤
          |e.translation.x - f * s * (n : ℝ)| := by
        rw [abs_sub_comm]
        exact le_abs_self _
      dsimp only at hd
      linarith
    exact Option.isSome_iff_exists.mpr ⟨_, by
      simp only [View.placement_result]
      rw [dif_pos ⟨n, hclear⟩]⟩
  exact ⟨h₁, h₂, fun objs xe ze =>
    h₂ objs (base_footprint_of xe ze) 1 (by nlinarith [h₁ xe ze])⟩

/-- Witness for C10: the bound and the termination theorem at concrete
inputs. -/
theorem C10_placement_terminates_witness :
    (View.placement_result [] 2 1).isSome = true :=
  C10_placement_terminates.2.1 [] 2 1 (by norm_num)

/-- `std::clamp(v, lo, hi)`: `lo` when `v < lo`, `hi` when `hi < v`, else `v`. -/
def std_clamp (v lo hi : ℝ) : ℝ := if v < lo then lo else if hi < v then hi else v

/-- A Qt mouse button as dispatched by the `View` event handlers. -/
inductive MouseButton where
  | left
  | right
  | middle
deriving DecidableEq

/-- The mutable widget state of class `View` (view_3D.h lines 100-127) that
the modelled event handlers read and write.  GPU handles, uniform locations
and the cached matrices are write-only render state and are omitted;
`color_mode_` never influences the modelled handlers. -/
structure ViewState where
  imported_objects_ : List ImportedObject
  selected_object_index_ : ℤ
  dragging_object_ : Bool
  drag_offset_ : Vec3
  cam_position : Vec3
  cam_rotation_degree : Vec3
  focus_point_ : Vec3
  last_mouse : ℝ × ℝ
  rotating : Bool
  panning : Bool
  scrolling_navigation_ : Bool

/-- The field initialisers of `View` (view_3D.h lines 112-127). -/
def initial_state : ViewState where
  imported_objects_ := []
  selected_object_index_ := -1
  dragging_object_ := false
  drag_offset_ := ⟨0, 0, 0⟩
  cam_position := ⟨3.0, 3.5, 15.0⟩
  cam_rotation_degree := ⟨-15.0, 15.0, 0.0⟩
  focus_point_ := ⟨0, 0, 0⟩
  last_mouse := (0, 0)
  rotating := false
  panning := false
  scrolling_navigation_ := false

namespace View

/-- `imported_objects_[selected_object_index_]`; every use in the source is
guarded by the bounds check `selected_object_index_ >= 0 && < size()`, under
which the `getD` fallback is never taken. -/
def selected_object (s : ViewState) : ImportedObject :=
  s.imported_objects_.getD s.selected_object_index_.toNat default

/-- `View::mousePressEvent` (view_3D.cpp lines 135-181).  The ray under the
cursor (the result of `compute_ray`) is passed in; `intersect_ground_plane`
and `pick_object` are applied to it exactly as the member functions do. -/
def mousePressEvent (s : ViewState) (button : MouseButton) (position : ℝ × ℝ)
    (ray : Option Ray) : ViewState :=
  let s₀ := { s with last_mouse := position }
  match button with
  | .right =>
      if (0 : ℤ) ≤ s₀.selected_object_index_ ∧
          s₀.selected_object_index_ < (s₀.imported_objects_.length : ℤ) then
        match intersect_ground_plane ray with
        | some hit =>
            { s₀ with dragging_object_ := true,
                      drag_offset_ := (selected_object s₀).translation - hit }
        | none => { s₀ with dragging_object_ := false, panning := true }
      else { s₀ with panning := true }
  | .left =>
      let s₁ :=
        if (0 : ℤ) ≤ s₀.selected_object_index_ ∧
            s₀.selected_object_index_ < (s₀.imported_objects_.length : ℤ) then
          if pick_object ray s₀.imported_objects_ < 0 then
            { s₀ with selected_object_index_ := -1, focus_point_ := ⟨0, 0, 0⟩ }
          else s₀
        else s₀
      { s₁ with rotating := true }
  | .middle => { s₀ with scrolling_navigation_ := true }

/-- `View::mouseReleaseEvent` (view_3D.cpp lines 183-208). -/
def mouseReleaseEvent (s : ViewState) (button : MouseButton) : ViewState :=
  match button with
  | .left => { s with rotating := false }
  | .right =>
      if s.dragging_object_ then { s with dragging_object_ := false }
      else { s with panning := false }
  | .middle => { s with scrolling_navigation_ := false }

/-- `View::mouseMoveEvent` (view_3D.cpp lines 210-278): object dragging when
`dragging_object_` and the selection is in range, otherwise the
orbit-around-focus, orbit and pan camera branches (`orbit_speed = 0.005`,
`min_radius = 0.25`). -/
def mouseMoveEvent (s : ViewState) (position : ℝ × ℝ) (ray : Option Ray)
    (shift : Bool) : ViewState :=
  let dx := position.1 - s.last_mouse.1
  let dy := position.2 - s.last_mouse.2
  let s₀ := { s with last_mouse := position }
  if s₀.dragging_object_ = true ∧ (0 : ℤ) ≤ s₀.selected_object_index_ ∧
      s₀.selected_object_index_ < (s₀.imported_objects_.length : ℤ) then
    match intersect_ground_plane ray with
    | some hit =>
        let object := selected_object s₀
        let new_translation := hit + s₀.drag_offset_
        let moved := { object with
          translation := ⟨new_translation.x, kGroundPlaneY, new_translation.z⟩ }
        { s₀ with imported_objects_ :=
            s₀.imported_objects_.set s₀.selected_object_index_.toNat moved }
    | none => s₀
  else if s₀.scrolling_navigation_ = true then
    let offset := s₀.cam_position - s₀.focus_point_
    let height := offset.y
    let radius := max (Real.sqrt (offset.x ^ 2 + offset.z ^ 2)) 0.25
    let yaw := radians s₀.cam_rotation_degree.y - dx * 0.005
    let offset₂ : Vec3 := ⟨radius * Real.sin yaw, height, radius * Real.cos yaw⟩
    { s₀ with cam_position := s₀.focus_point_ + offset₂,
              cam_rotation_degree := ⟨s₀.cam_rotation_degree.x, degrees yaw,
                s₀.cam_rotation_degree.z⟩ }
  else if s₀.rotating = true then
    { s₀ with cam_rotation_degree := ⟨s₀.cam_rotation_degree.x + 0.3 * dy,
        s₀.cam_rotation_degree.y + 0.3 * dx, s₀.cam_rotation_degree.z⟩ }
  else if s₀.panning = true then
    if shift = true then
      { s₀ with cam_position := ⟨s₀.cam_position.x,
          s₀.cam_position.y + -0.01 * dy, s₀.cam_position.z⟩ }
    else
      { s₀ with cam_position := ⟨s₀.cam_position.x + 0.01 * dx,
          s₀.cam_position.y, s₀.cam_position.z + 0.01 * dy⟩ }
  else s₀

/-- `View::wheelEvent` (view_3D.cpp lines 297-317): `steps` is
`angleDelta().y() / 120.0f` (the Qt delta is an integer); zero movement is
ignored; with a valid selection the object is rescaled by `1.1^steps` clamped
to `[kMinObjectScale, kMaxObjectScale]`, otherwise the camera dollies by
`-0.5 * steps` along Z. -/
def wheelEvent (s : ViewState) (angle_delta_y : ℤ) : ViewState :=
  let steps : ℝ := (angle_delta_y : ℝ) / 120
  if |steps| < fltEpsilon then s
  else if (0 : ℤ) ≤ s.selected_object_index_ ∧
      s.selected_object_index_ < (s.imported_objects_.length : ℤ) then
    let object := selected_object s
    let factor : ℝ := (1.1 : ℝ) ^ steps
    let rescaled := { object with
      scale := std_clamp (object.scale * factor) kMinObjectScale kMaxObjectScale }
    { s with imported_objects_ :=
        s.imported_objects_.set s.selected_object_index_.toNat rescaled }
  else
    { s with cam_position := ⟨s.cam_position.x, s.cam_position.y,
        s.cam_position.z + -0.5 * steps⟩ }

/-- `View::mouseDoubleClickEvent` (view_3D.cpp lines 280-295): a left double
click that picks an object selects it, focuses it and clears the drag and
rotate flags; otherwise nothing in the modelled state changes (the base-class
handler touches none of it). -/
def mouseDoubleClickEvent (s : ViewState) (button : MouseButton)
    (ray : Option Ray) : ViewState :=
  if button = .left then
    let hit_index := pick_object ray s.imported_objects_
    if 0 ≤ hit_index then
      { s with selected_object_index_ := hit_index,
               focus_point_ := (s.imported_objects_.getD hit_index.toNat
                 default).translation,
               dragging_object_ := false,
               rotating := false }
    else s
  else s

end View

/-- An input event delivered to the widget, carrying the world-space ray that
`compute_ray` derives for the cursor position (`none` when `compute_ray`
fails on a degenerate viewport). -/
inductive Event where
  | press (button : MouseButton) (position : ℝ × ℝ) (ray : Option Ray)
  | release (button : MouseButton)
  | move (position : ℝ × ℝ) (ray : Option Ray) (shift : Bool)
  | wheel (angle_delta_y : ℤ)
  | doubleClick (button : MouseButton) (ray : Option Ray)

/-- Dispatch of one event to the corresponding `View` handler. -/
def step (s : ViewState) : Event → ViewState
  | .press b position ray => View.mousePressEvent s b position ray
  | .release b => View.mouseReleaseEvent s b
  | .move position ray shift => View.mouseMoveEvent s position ray shift
  | .wheel d => View.wheelEvent s d
  | .doubleClick b ray => View.mouseDoubleClickEvent s b ray

/-- A state reachable from the initial widget state by a sequence of input
events. -/
def reachable (s : ViewState) : Prop :=
  ∃ events : List Event, s = events.foldl step initial_state

/-- The number of simultaneously active interaction modes among OrbitCamera
(`rotating`), PanCamera (`panning`), DragObject (`dragging_object_`) and
OrbitAroundFocus (`scrolling_navigation_`). -/
def active_modes (s : ViewState) : ℕ :=
  (if s.rotating then 1 else 0) + (if s.panning then 1 else 0) +
    (if s.dragging_object_ then 1 else 0) +
    (if s.scrolling_navigation_ then 1 else 0)

theorem press_active_le (s : ViewState) (b : MouseButton) (position : ℝ × ℝ)
    (ray : Option Ray) :
    active_modes (View.mousePressEvent s b position ray) ≤ active_modes s + 1 := by
  cases b <;>
    (simp only [View.mousePressEvent]
     (try split_ifs) <;> (try split) <;>
       (simp only [active_modes]
        cases s.rotating <;> cases s.panning <;> cases s.dragging_object_ <;>
          cases s.scrolling_navigation_ <;> simp))

theorem release_active_le (s : ViewState) (b : MouseButton) :
    active_modes (View.mouseReleaseEvent s b) ≤ active_modes s := by
  cases b <;>
    (simp only [View.mouseReleaseEvent]
     (try split_ifs) <;>
       (simp only [active_modes]
        cases s.rotating <;> cases s.panning <;> cases s.dragging_object_ <;>
          cases s.scrolling_navigation_ <;> simp))

theorem move_active_eq (s : ViewState) (position : ℝ × ℝ) (ray : Option Ray)
    (shift : Bool) :
    active_modes (View.mouseMoveEvent s position ray shift) = active_modes s := by
  simp only [View.mouseMoveEvent]
  split_ifs <;> (try split) <;> rfl

theorem wheel_active_eq (s : ViewState) (d : ℤ) :
    active_modes (View.wheelEvent s d) = active_modes s := by
  simp only [View.wheelEvent]
  split_ifs <;> rfl

theorem dblclick_active_le (s : ViewState) (b : MouseButton) (ray : Option Ray) :
    active_modes (View.mouseDoubleClickEvent s b ray) ≤ active_modes s := by
  simp only [View.mouseDoubleClickEvent]
  split_ifs <;>
    (simp only [active_modes]
     cases s.rotating <;> cases s.panning <;> cases s.dragging_object_ <;>
       cases s.scrolling_navigation_ <;> simp)

/-- Reachability restricted to non-chorded input: a button-press event is
delivered only in a state where no interaction mode is active (no other
button is currently held driving a mode). -/
inductive ReachableUnchorded : ViewState → Prop where
  | init : ReachableUnchorded initial_state
  | press (s : ViewState) (b : MouseButton) (position : ℝ × ℝ) (ray : Option Ray) :
      ReachableUnchorded s → active_modes s = 0 →
      ReachableUnchorded (step s (Event.press b position ray))
  | release (s : ViewState) (b : MouseButton) :
      ReachableUnchorded s → ReachableUnchorded (step s (Event.release b))
  | move (s : ViewState) (position : ℝ × ℝ) (ray : Option Ray) (shift : Bool) :
      ReachableUnchorded s → ReachableUnchorded (step s (Event.move position ray shift))
  | wheel (s : ViewState) (d : ℤ) :
      ReachableUnchorded s → ReachableUnchorded (step s (Event.wheel d))
  | doubleClick (s : ViewState) (b : MouseButton) (ray : Option Ray) :
      ReachableUnchorded s → ReachableUnchorded (step s (Event.doubleClick b ray))

/-- C5 (amended): at most one of the four interaction modes (OrbitCamera
`rotating`, PanCamera `panning`, DragObject `dragging_object_`,
OrbitAroundFocus `scrolling_navigation_`) is active in every state reachable
when each button press arrives with no mode active; with chorded presses
(a second button pressed while one is held) two modes can be simultaneously
active, so the claim fails for arbitrary event sequences. -/
theorem C5_mode_exclusion :
    ∀ s : ViewState, ReachableUnchorded s → active_modes s ≤ 1 := by
  intro s h
  induction h with
  | init => decide
  | press s b position ray _ hidle _ =>
      calc active_modes (step s (Event.press b position ray)) ≤ active_modes s + 1 :=
        press_active_le s b position ray
      _ ≤ 1 := by omega
  | release s b _ ih => exact le_trans (release_active_le s b) ih
  | move s position ray shift _ ih => exact le_of_eq_of_le (move_active_eq s position ray shift) ih
  | wheel s d _ ih => exact le_of_eq_of_le (wheel_active_eq s d) ih
  | doubleClick s b ray _ ih => exact le_trans (dblclick_active_le s b ray) ih

/-- Witness for C5 (amended): the initial state is reachable unchorded and
has no active mode. -/
theorem C5_mode_exclusion_witness : active_modes initial_state ≤ 1 :=
  C5_mode_exclusion initial_state ReachableUnchorded.init

/-- Counterexample to C5 as stated: pressing the left button and then the
middle button without releasing (a chorded press sequence, allowed by the
claim's arbitrary event sequences) leaves both the `rotating` and the
`scrolling_navigation_` modes active at once. -/
theorem C5_mode_exclusion_counterexample :
    reachable (step (step initial_state (Event.press MouseButton.left (0, 0) none))
        (Event.press MouseButton.middle (0, 0) none)) ∧
    ¬ active_modes (step (step initial_state (Event.press MouseButton.left (0, 0) none))
        (Event.press MouseButton.middle (0, 0) none)) ≤ 1 := by
  constructor
  · exact ⟨[Event.press MouseButton.left (0, 0) none,
      Event.press MouseButton.middle (0, 0) none], rfl⟩
  · decide

theorem std_clamp_mem (v lo hi : ℝ) (h : lo ≤ hi) :
    lo ≤ std_clamp v lo hi ∧ std_clamp v lo hi ≤ hi := by
  unfold std_clamp
  split_ifs <;> constructor <;> linarith

/-- The selected object after a wheel event of `angle_delta_y = d`: its scale
is multiplied by `1.1 ^ (d / 120)` and clamped to
`[kMinObjectScale, kMaxObjectScale]`. -/
def rescaled_object (s : ViewState) (d : ℤ) : ImportedObject :=
  { View.selected_object s with
    scale := std_clamp ((View.selected_object s).scale * (1.1 : ℝ) ^ ((d : ℝ) / 120))
      kMinObjectScale kMaxObjectScale }

/-- The state after a wheel rescale: the selected slot is replaced by
`rescaled_object`. -/
def wheel_rescaled_state (s : ViewState) (d : ℤ) : ViewState :=
  { s with imported_objects_ :=
      s.imported_objects_.set s.selected_object_index_.toNat (rescaled_object s d) }

theorem wheel_nonzero_steps (d : ℤ) (hd : d ≠ 0) :
    ¬ |(d : ℝ) / 120| < fltEpsilon := by
  have h1 : (1 : ℝ) ≤ |(d : ℝ)| := by
    calc (1 : ℝ) = ((1 : ℤ) : ℝ) := by norm_num
      _ ≤ ((|d| : ℤ) : ℝ) := by exact_mod_cast Int.one_le_abs hd
      _ = |(d : ℝ)| := by push_cast; ring_nf
  rw [abs_div, show |(120 : ℝ)| = 120 by norm_num, not_lt]
  rw [show fltEpsilon = 1 / 8388608 from rfl]
  rw [div_le_div_iff (by norm_num) (by norm_num)]
  linarith

theorem wheel_scale_invariant (s : ViewState)
    (hinv : ∀ o ∈ s.imported_objects_,
      kMinObjectScale ≤ o.scale ∧ o.scale ≤ kMaxObjectScale) (d : ℤ) :
    ∀ o ∈ (View.wheelEvent s d).imported_objects_,
      kMinObjectScale ≤ o.scale ∧ o.scale ≤ kMaxObjectScale := by
  intro o ho
  simp only [View.wheelEvent] at ho
  split_ifs at ho with h₁ h₂
  · exact hinv o ho
  · rcases List.mem_or_eq_of_mem_set ho with hmem | rfl
    · exact hinv o hmem
    · exact std_clamp_mem _ _ _ (by norm_num [kMinObjectScale, kMaxObjectScale])
  · exact hinv o ho

/-- C6: a wheel event with a valid selection and nonzero integer delta `d`
multiplies the selected object's scale by `1.1 ^ (d / 120)` and clamps the
result to `[0.25, 8.0]`; the import-time scale `1.0` lies in that interval,
and starting from any state whose scales lie in the interval, the scale of
every object still lies in `[0.25, 8.0]` after any sequence of wheel events
of any step counts and signs. -/
theorem C6_wheel_scale_bounds :
    (∀ (s : ViewState) (d : ℤ), d ≠ 0 →
        (0 : ℤ) ≤ s.selected_object_index_ →
        s.selected_object_index_ < (s.imported_objects_.length : ℤ) →
        View.wheelEvent s d = wheel_rescaled_state s d)
    ∧ (kMinObjectScale ≤ (1.0 : ℝ) ∧ (1.0 : ℝ) ≤ kMaxObjectScale)
    ∧ ∀ s : ViewState,
        (∀ o ∈ s.imported_objects_,
          kMinObjectScale ≤ o.scale ∧ o.scale ≤ kMaxObjectScale) →
        ∀ ds : List ℤ, ∀ o ∈ (ds.foldl View.wheelEvent s).imported_objects_,
          kMinObjectScale ≤ o.scale ∧ o.scale ≤ kMaxObjectScale := by
  refine ⟨?_, ⟨by norm_num [kMinObjectScale], by norm_num [kMaxObjectScale]⟩, ?_⟩
  · intro s d hd h₁ h₂
    simp only [View.wheelEvent]
    rw [if_neg (wheel_nonzero_steps d hd), if_pos ⟨h₁, h₂⟩]
    rfl
  · intro s hinv ds
    induction ds generalizing s with
    | nil => exact hinv
    | cons d rest ih =>
        exact ih (View.wheelEvent s d) (wheel_scale_invariant s hinv d)

/-- A one-object scene with the object selected, used to instantiate the
handler theorems at concrete inputs. -/
def demo_state : ViewState where
  imported_objects_ := [{}]
  selected_object_index_ := 0
  dragging_object_ := false
  drag_offset_ := ⟨0, 0, 0⟩
  cam_position := ⟨0, 0, 0⟩
  cam_rotation_degree := ⟨0, 0, 0⟩
  focus_point_ := ⟨0, 0, 0⟩
  last_mouse := (0, 0)
  rotating := false
  panning := false
  scrolling_navigation_ := false

/-- Witness for C6: from the one-object scene at import scale 1.0, the scale
stays within `[0.25, 8.0]` after the wheel sequence `+2, -5` detents. -/
theorem C6_wheel_scale_bounds_witness :
    ∀ o ∈ (([240, -600] : List ℤ).foldl View.wheelEvent demo_state).imported_objects_,
      kMinObjectScale ≤ o.scale ∧ o.scale ≤ kMaxObjectScale :=
  C6_wheel_scale_bounds.2.2 demo_state
    (by
      intro o ho
      simp only [demo_state, List.mem_singleton] at ho
      subst ho
      norm_num [kMinObjectScale, kMaxObjectScale])
    [240, -600]

/-- The state recorded on a secondary-button press over a ground hit: the
drag flag is raised and the offset between the selected object and the hit
point is stored. -/
def drag_started_state (s : ViewState) (position : ℝ × ℝ) (hit : Vec3) : ViewState :=
  { s with last_mouse := position, dragging_object_ := true,
           drag_offset_ := (View.selected_object s).translation - hit }

/-- The selected object as repositioned by a drag move: the ground hit plus
the recorded offset, with Y forced back to the ground plane. -/
def dragged_object (s : ViewState) (hit : Vec3) : ImportedObject :=
  { View.selected_object s with
    translation := ⟨(hit + s.drag_offset_).x, kGroundPlaneY, (hit + s.drag_offset_).z⟩ }

/-- The state after a drag move whose ray hit the ground plane. -/
def drag_moved_state (s : ViewState) (position : ℝ × ℝ) (hit : Vec3) : ViewState :=
  { s with last_mouse := position,
           imported_objects_ :=
             s.imported_objects_.set s.selected_object_index_.toNat (dragged_object s hit) }

/-- C7: a secondary press over a ground hit records the offset and starts the
drag; while DragObject is active with a valid selection, every pointer move
whose ray hits the ground plane sets the selected object's translation to the
hit point plus the recorded offset with Y snapped to the ground height, and
every pointer move whose ray misses the ground plane leaves everything but
the cached cursor position unchanged. -/
theorem C7_drag_ground_follow :
    (∀ (s : ViewState) (position : ℝ × ℝ) (ray : Option Ray) (hit : Vec3),
        (0 : ℤ) ≤ s.selected_object_index_ →
        s.selected_object_index_ < (s.imported_objects_.length : ℤ) →
        View.intersect_ground_plane ray = some hit →
        View.mousePressEvent s MouseButton.right position ray =
          drag_started_state s position hit)
    ∧ (∀ (s : ViewState) (position : ℝ × ℝ) (ray : Option Ray) (shift : Bool) (hit : Vec3),
        s.dragging_object_ = true →
        (0 : ℤ) ≤ s.selected_object_index_ →
        s.selected_object_index_ < (s.imported_objects_.length : ℤ) →
        View.intersect_ground_plane ray = some hit →
        View.mouseMoveEvent s position ray shift = drag_moved_state s position hit
          ∧ (dragged_object s hit).translation.y = kGroundPlaneY
          ∧ (dragged_object s hit).translation.x = (hit + s.drag_offset_).x
          ∧ (dragged_object s hit).translation.z = (hit + s.drag_offset_).z)
    ∧ ∀ (s : ViewState) (position : ℝ × ℝ) (ray : Option Ray) (shift : Bool),
        s.dragging_object_ = true →
        (0 : ℤ) ≤ s.selected_object_index_ →
        s.selected_object_index_ < (s.imported_objects_.length : ℤ) →
        View.intersect_ground_plane ray = none →
        View.mouseMoveEvent s position ray shift = { s with last_mouse := position } := by
  refine ⟨?_, ?_, ?_⟩
  · intro s position ray hit h₁ h₂ hray
    simp only [View.mousePressEvent]
    rw [if_pos ⟨h₁, h₂⟩, hray]
    rfl
  · intro s position ray shift hit hdrag h₁ h₂ hray
    refine ⟨?_, rfl, rfl, rfl⟩
    simp only [View.mouseMoveEvent]
    rw [if_pos ⟨hdrag, h₁, h₂⟩, hray]
    rfl
  · intro s position ray shift hdrag h₁ h₂ hray
    simp only [View.mouseMoveEvent]
    rw [if_pos ⟨hdrag, h₁, h₂⟩, hray]

/-- The one-object scene mid-drag, with a recorded offset. -/
def dragging_state : ViewState :=
  { demo_state with dragging_object_ := true, drag_offset_ := ⟨1, 0, 0⟩ }

/-- Witness for C7: from the mid-drag scene, a pointer move whose ray points
straight down from `(0, 10, 0)` hits the ground and moves the object to the
hit plus the offset, with Y on the ground plane. -/
theorem C7_drag_ground_follow_witness :
    View.mouseMoveEvent dragging_state (3, 4) (some (⟨0, 10, 0⟩, ⟨0, -1, 0⟩)) false =
        drag_moved_state dragging_state (3, 4) ⟨0, kGroundPlaneY, 0⟩
      ∧ (dragged_object dragging_state ⟨0, kGroundPlaneY, 0⟩).translation.y =
        kGroundPlaneY := by
  have hray : View.intersect_ground_plane (some (⟨0, 10, 0⟩, ⟨0, -1, 0⟩)) =
      some ⟨0, kGroundPlaneY, 0⟩ := by
    show View.intersect_ground_plane_ray ⟨0, 10, 0⟩ ⟨0, -1, 0⟩ = some ⟨0, kGroundPlaneY, 0⟩
    simp only [View.intersect_ground_plane_ray]
    rw [if_neg (by norm_num), if_neg (by norm_num [kGroundPlaneY])]
    norm_num [kGroundPlaneY]
  have h := C7_drag_ground_follow.2.1 dragging_state (3, 4)
    (some (⟨0, 10, 0⟩, ⟨0, -1, 0⟩)) false ⟨0, kGroundPlaneY, 0⟩ rfl (by decide)
    (by decide) hray
  exact ⟨h.1, h.2.1⟩

/-- The same widget state with a different selection index. -/
def with_selection (s : ViewState) (i : ℤ) : ViewState :=
  { s with selected_object_index_ := i }

/-- C9: every object-relative operation (wheel rescale, secondary-press drag
start, drag move) first re-validates the selected index against the current
collection bounds, and an out-of-range index behaves identically to no
selection (`selected_object_index_ = -1`): the resulting state agrees with
the no-selection run in every field except the preserved index itself — a
wheel event dollies the camera instead of rescaling and a secondary press
pans — and no handler ever indexes the collection with the invalid index
(all of them are total functions). -/
theorem C9_invalid_selection_like_none :
    ∀ s : ViewState,
      (s.selected_object_index_ < 0 ∨
        (s.imported_objects_.length : ℤ) ≤ s.selected_object_index_) →
      (∀ d : ℤ, View.wheelEvent s d =
        with_selection (View.wheelEvent (with_selection s (-1)) d)
          s.selected_object_index_)
      ∧ (∀ (position : ℝ × ℝ) (ray : Option Ray),
          View.mousePressEvent s MouseButton.right position ray =
            with_selection
              (View.mousePressEvent (with_selection s (-1)) MouseButton.right position ray)
              s.selected_object_index_)
      ∧ ∀ (position : ℝ × ℝ) (ray : Option Ray) (shift : Bool),
          View.mouseMoveEvent s position ray shift =
            with_selection (View.mouseMoveEvent (with_selection s (-1)) position ray shift)
              s.selected_object_index_ := by
  intro s hinv
  have hno : ¬((0 : ℤ) ≤ s.selected_object_index_ ∧
      s.selected_object_index_ < (s.imported_objects_.length : ℤ)) := by omega
  have hno₂ : ¬(s.dragging_object_ = true ∧ (0 : ℤ) ≤ s.selected_object_index_ ∧
      s.selected_object_index_ < (s.imported_objects_.length : ℤ)) :=
    fun h => hno ⟨h.2.1, h.2.2⟩
  have hneg : ¬((0 : ℤ) ≤ (-1 : ℤ) ∧
      (-1 : ℤ) < (s.imported_objects_.length : ℤ)) := by omega
  have hneg₂ : ¬(s.dragging_object_ = true ∧ (0 : ℤ) ≤ (-1 : ℤ) ∧
      (-1 : ℤ) < (s.imported_objects_.length : ℤ)) :=
    fun h => hneg ⟨h.2.1, h.2.2⟩
  refine ⟨?_, ?_, ?_⟩
  · intro d
    simp only [View.wheelEvent, with_selection]
    by_cases hsteps : |(d : ℝ) / 120| < fltEpsilon
    · rw [if_pos hsteps, if_pos hsteps]
    · rw [if_neg hsteps, if_neg hsteps, if_neg hno, if_neg hneg]
  · intro position ray
    simp only [View.mousePressEvent, with_selection]
    rw [if_neg hno, if_neg hneg]
  · intro position ray shift
    simp only [View.mouseMoveEvent, with_selection]
    rw [if_neg hno₂, if_neg hneg₂]
    split_ifs <;> rfl

/-- A scene with a stale out-of-range selection index. -/
def stale_state : ViewState := { demo_state with imported_objects_ := [], selected_object_index_ := 5 }

/-- Witness for C9: with the stale index 5 over an empty collection, a wheel
event behaves exactly like the no-selection run with the index restored. -/
theorem C9_invalid_selection_like_none_witness :
    View.wheelEvent stale_state 120 =
      with_selection (View.wheelEvent (with_selection stale_state (-1)) 120)
        stale_state.selected_object_index_ :=
  (C9_invalid_selection_like_none stale_state (by decide)).1 120

/-- The part of an `aiMesh` that `View::load_object` reads: the
`HasPositions` flag, the vertex positions (`mVertices`) and the per-face
index lists (`mFaces`).  Normals and UVs only feed the GPU vertex stream and
are not observable in the modelled state. -/
structure MeshData where
  hasPositions : Bool
  vertices : List Vec3
  faces : List (List ℕ)

/-- The part of an `aiScene` that `View::load_object` reads: the mesh list
(`mMeshes`, entries possibly null). -/
structure AssimpScene where
  meshes : List (Option MeshData)

/-- The triangle-flattening loop of `View::load_object`
(view_3D.cpp lines 412-445): faces with fewer than 3 indices are skipped, and
within a face every index at or beyond `mNumVertices` is skipped. -/
def flatten_mesh_vertices (mesh : MeshData) : List Vec3 :=
  (mesh.faces.map fun face =>
    if face.length < 3 then []
    else face.filterMap fun vertex_index => mesh.vertices.get? vertex_index).join

/-- `View::load_object` (view_3D.cpp lines 368-529) on the modelled state.
The input is the result of `Assimp::Importer::ReadFile` (`none` for an
unreadable or unparseable file).  The returned `Bool` is the function's
return value; the outer `Option` is `none` only when the placement loop does
not terminate (the C++ would spin forever).  GPU buffer creation
(lines 482-500) has no effect on the modelled state. -/
def View.load_object (scene : Option AssimpScene) (s : ViewState) :
    Option (Bool × ViewState) :=
  match scene with
  | none => some (false, s)
  | some sc =>
    match sc.meshes with
    | [] => some (false, s)
    | mesh? :: _ =>
      match mesh? with
      | none => some (false, s)
      | some mesh =>
        if mesh.hasPositions = false then some (false, s)
        else
          let vertices := flatten_mesh_vertices mesh
          if vertices = [] then some (false, s)
          else
            let min_x := vertices.foldl (fun a v => min a v.x) fltMax
            let min_y := vertices.foldl (fun a v => min a v.y) fltMax
            let min_z := vertices.foldl (fun a v => min a v.z) fltMax
            let max_x := vertices.foldl (fun a v => max a v.x) (-fltMax)
            let max_z := vertices.foldl (fun a v => max a v.z) (-fltMax)
            let center_x := 0.5 * (min_x + max_x)
            let center_z := 0.5 * (min_z + max_z)
            let recentered := vertices.map fun v =>
              (⟨v.x - center_x, v.y - min_y, v.z - center_z⟩ : Vec3)
            let max_radius_sq := recentered.foldl (fun a v => max a (Vec3.dot v v)) 0
            let object : ImportedObject :=
              { vertex_count := vertices.length,
                translation := ⟨0, 0, 0⟩,
                base_footprint := base_footprint_of (max_x - min_x) (max_z - min_z),
                radius := Real.sqrt max_radius_sq,
                scale := 1.0 }
            match View.placement_result s.imported_objects_ object.base_footprint
                object.scale with
            | none => none
            | some desired_translation =>
                let placed := { object with translation := desired_translation }
                some (true, { s with imported_objects_ :=
                  s.imported_objects_ ++ [placed] })

/-- The import-failure conditions of `View::load_object`: unreadable or
unparseable file, a scene without meshes, a null first mesh, a mesh without
position data, or a mesh yielding zero usable triangles. -/
def load_fails (scene : Option AssimpScene) : Prop :=
  match scene with
  | none => True
  | some sc =>
    match sc.meshes with
    | [] => True
    | mesh? :: _ =>
      match mesh? with
      | none => True
      | some mesh => mesh.hasPositions = false ∨ flatten_mesh_vertices mesh = []

/-- C8: `load_object` returns `false` (a boolean failure value, not an
exception — the model is a total function) exactly when the file is
unreadable or unparseable, the scene has no meshes, the first mesh is null or
lacks position data, or the mesh yields zero usable triangles; and whenever
it returns `false` the whole scene state (imported-object list, selection
index, camera pose, focus point — every field) is unmodified. -/
theorem C8_load_failure_no_mutation :
    ∀ (scene : Option AssimpScene) (s : ViewState),
      (load_fails scene → View.load_object scene s = some (false, s))
      ∧ ∀ (b : Bool) (s₂ : ViewState),
          View.load_object scene s = some (b, s₂) →
            (b = false ↔ load_fails scene) ∧ (b = false → s₂ = s) := by
  intro scene s
  rcases scene with _ | ⟨meshes⟩
  · refine ⟨fun _ => rfl, ?_⟩
    intro b s₂ h
    simp only [View.load_object, Option.some.injEq, Prod.mk.injEq] at h
    obtain ⟨hb, hs⟩ := h
    subst hb; subst hs
    exact ⟨by simp [load_fails], fun _ => rfl⟩
  rcases meshes with _ | ⟨mesh?, rest⟩
  · refine ⟨fun _ => rfl, ?_⟩
    intro b s₂ h
    simp only [View.load_object, Option.some.injEq, Prod.mk.injEq] at h
    obtain ⟨hb, hs⟩ := h
    subst hb; subst hs
    exact ⟨by simp [load_fails], fun _ => rfl⟩
  rcases mesh? with _ | ⟨mesh⟩
  · refine ⟨fun _ => rfl, ?_⟩
    intro b s₂ h
    simp only [View.load_object, Option.some.injEq, Prod.mk.injEq] at h
    obtain ⟨hb, hs⟩ := h
    subst hb; subst hs
    exact ⟨by simp [load_fails], fun _ => rfl⟩
  by_cases hpos : (⟨mesh.hasPositions, mesh.vertices, mesh.faces⟩ : MeshData).hasPositions = false
  · constructor
    · intro _
      simp only [View.load_object]
      rw [if_pos hpos]
    · intro b s₂ h
      simp only [View.load_object] at h
      rw [if_pos hpos] at h
      simp only [Option.some.injEq, Prod.mk.injEq] at h
      obtain ⟨hb, hs⟩ := h
      subst hb; subst hs
      exact ⟨by simp only [load_fails]; exact iff_of_true trivial (Or.inl hpos), fun _ => rfl⟩
  by_cases hemp : flatten_mesh_vertices ⟨mesh.hasPositions, mesh.vertices, mesh.faces⟩ = []
  · constructor
    · intro _
      simp only [View.load_object]
      rw [if_neg hpos, if_pos hemp]
    · intro b s₂ h
      simp only [View.load_object] at h
      rw [if_neg hpos, if_pos hemp] at h
      simp only [Option.some.injEq, Prod.mk.injEq] at h
      obtain ⟨hb, hs⟩ := h
      subst hb; subst hs
      exact ⟨by simp only [load_fails]; exact iff_of_true trivial (Or.inr hemp), fun _ => rfl⟩
  constructor
  · intro hf
    exfalso
    simp only [load_fails] at hf
    rcases hf with hf | hf
    · exact hpos hf
    · exact hemp hf
  · intro b s₂ h
    simp only [View.load_object] at h
    rw [if_neg hpos, if_neg hemp] at h
    rcases hplace : View.placement_result s.imported_objects_
        (base_footprint_of
          ((flatten_mesh_vertices ⟨mesh.hasPositions, mesh.vertices, mesh.faces⟩).foldl
            (fun a v => max a v.x) (-fltMax) -
           (flatten_mesh_vertices ⟨mesh.hasPositions, mesh.vertices, mesh.faces⟩).foldl
            (fun a v => min a v.x) fltMax)
          ((flatten_mesh_vertices ⟨mesh.hasPositions, mesh.vertices, mesh.faces⟩).foldl
            (fun a v => max a v.z) (-fltMax) -
           (flatten_mesh_vertices ⟨mesh.hasPositions, mesh.vertices, mesh.faces⟩).foldl
            (fun a v => min a v.z) fltMax)) 1.0 with hp | ⟨pos⟩
    · rw [hplace] at h
      cases h
    · rw [hplace] at h
      simp only [Option.some.injEq, Prod.mk.injEq] at h
      obtain ⟨hb, _⟩ := h
      subst hb
      refine ⟨?_, fun hc => by cases hc⟩
      constructor
      · intro hc; cases hc
      · intro hf
        exfalso
        simp only [load_fails] at hf
        rcases hf with hf | hf
        · exact hpos hf
        · exact hemp hf

/-- Witness for C8: an unreadable file (a `none` scene) returns `false` and
leaves the scene state exactly as it was. -/
theorem C8_load_failure_no_mutation_witness :
    View.load_object none demo_state = some (false, demo_state) :=
  (C8_load_failure_no_mutation none demo_state).1 trivial
